import Mathlib

/-!
Verification of the GCP Secret Manager provider of the external-secrets
repository (package `secretmanager`, plus the ACR access-token generator in
`pkg/generator/acr`).

The Go source is shallowly embedded: each provider operation becomes a pure
Lean function over explicit inputs.  Remote RPCs (`GetSecret`,
`CreateSecret`, `AccessSecretVersion`, `AddSecretVersion`, Kubernetes
`Get`, OAuth helpers) are modelled as operation records / oracle functions
whose results are threaded through the translated control flow, and each
embedded function additionally returns the list of remote calls it issued,
so that claims about calls that must or must not happen are statable.
A concrete in-memory remote store (`smFakeOps`) instantiates the operation
record with the documented semantics of the Secret Manager API so that
state-change claims (ownership, idempotence) can be proved.
-/

/-- Byte strings (`[]byte` in Go) are modelled as lists of naturals. -/
abbrev Bytes : Type := List Nat

deriving instance DecidableEq for Except

/-- gRPC status codes distinguished by the source: `codes.NotFound` versus
every other code. -/
inductive GrpcCode where
  | notFound
  | other
  deriving DecidableEq, Repr

/-- Go `error` values as the source observes them: an error that unwraps to an
`apierror.APIError` carrying a gRPC status, a plain error, or a
`fmt.Errorf("...: %w", err)` wrapper around another error. -/
inductive GoError where
  | api (c : GrpcCode)
  | plain (m : String)
  | wrap (msg : String) (e : GoError)
  deriving DecidableEq, Repr

/-- Models `errors.As(err, &gErr)` for `gErr : *apierror.APIError`: walks the
wrap chain and yields the gRPC status code if one is found. -/
def asAPIError : GoError → Option GrpcCode
  | .api c => some c
  | .plain _ => none
  | .wrap _ e => asAPIError e

/-- Result of running an embedded Go function: a normal return value, a
returned error, or a runtime panic (nil-pointer dereference). -/
inductive Outcome (α : Type) where
  | ok (a : α)
  | err (e : GoError)
  | panicked
  deriving DecidableEq, Repr

/-- Go map lookup `m[k]` on a `map[string]string`, with the `ok` flag encoded
as `Option`. -/
def goMapLookup : List (String × String) → String → Option String
  | [], _ => none
  | (k, v) :: t, key => if key = k then some v else goMapLookup t key

/-- Go map lookup on a `map[string][]byte`. -/
def goMapLookupB : List (String × Bytes) → String → Option Bytes
  | [], _ => none
  | (k, v) :: t, key => if key = k then some v else goMapLookupB t key

/- ### Error message constants of the secretmanager package -/

def errGCPSMStore : String := "received invalid GCPSM SecretStore resource"
def errUnableGetCredentials : String := "unable to get credentials: %w"
def errClientClose : String := "unable to close SecretManager client: %w"
def errMissingStoreSpec : String := "invalid: missing store spec"
def errInvalidClusterStoreMissingSAKNamespace : String := "invalid ClusterSecretStore: missing GCP SecretAccessKey Namespace"
def errFetchSAKSecret : String := "could not fetch SecretAccessKey secret: %w"
def errMissingSAK : String := "missing SecretAccessKey"
def errUnableProcessJSONCredentials : String := "failed to process the provided JSON credentials: %w"
def errUnableCreateGCPSMClient : String := "failed to create GCP secretmanager client: %w"
def errUninitalizedGCPProvider : String := "provider GCP is not initialized"
def errClientGetSecretAccess : String := "unable to access Secret from SecretManager Client: %w"
def errJSONSecretUnmarshal : String := "unable to unmarshal secret: %w"
def errUnexpectedFindOperator : String := "unexpected find operator"

/- ### SetSecret: idempotent push with ownership enforcement -/

/-- The `Replication` oneof of the Secret Manager protobuf.  `SetSecret` only
ever constructs the `Automatic` variant; `userManaged` stands for the other
protobuf alternative. -/
inductive Replication where
  | automatic
  | userManaged
  deriving DecidableEq, Repr

/-- The slice of a `secretmanagerpb.Secret` that `SetSecret` inspects after a
`GetSecret`/`CreateSecret` call: its label map. -/
structure GSecret where
  labels : List (String × String)
  deriving DecidableEq, Repr

/-- A remote call issued by `SetSecret`, with the request data the source
builds for it (`fmt.Sprintf` resource names, labels, replication policy). -/
inductive SMCall where
  | getSecret (name : String)
  | createSecret (parent : String) (secretId : String)
      (labels : List (String × String)) (repl : Replication)
  | accessVersion (name : String)
  | addVersion (parent : String) (data : Bytes)
  deriving DecidableEq, Repr

/-- The operations of the `GoogleSecretManagerClient` interface that
`SetSecret` uses, over an abstract client state `σ`.  Each operation receives
the remote key of the secret being pushed and returns a Go-style
result together with the successor state. -/
structure SMOps (σ : Type) where
  getSecret : σ → String → Except GoError GSecret × σ
  createSecret : σ → String → List (String × String) → Replication →
      Except GoError GSecret × σ
  accessLatest : σ → String → Except GoError (Option Bytes) × σ
  addVersion : σ → String → Bytes → Except GoError Unit × σ

/-- The ownership label attached to every secret this system creates. -/
def mgLabels : List (String × String) := [("managed-by", "external-secrets")]

/-- The error `SetSecret` returns on an ownership violation
(`fmt.Errorf("secret %v is not managed by external secrets", key)`). -/
def notManagedError (key : String) : GoError :=
  .plain ("secret " ++ key ++ " is not managed by external secrets")

/-- Resource name `projects/<project>/secrets/<key>` built by `SetSecret`. -/
def secretResourceName (projectID remoteKey : String) : String :=
  "projects/" ++ projectID ++ "/secrets/" ++ remoteKey

/-- The idempotence short-circuit test of `SetSecret`:
`gcpVersion != nil && gcpVersion.Payload != nil && string(payload) ==
string(gcpVersion.Payload.Data)`.  The outer `Option` is nil-ness of the
`AccessSecretVersion` response, the inner one nil-ness of its payload. -/
def setSecretShortCircuit (payload : Bytes) : Option (Option Bytes) → Bool
  | some (some d) => payload = d
  | _ => false

/-- Final step of `SetSecret`: compare the latest version (if any) with the
incoming payload and append a new version unless they are byte-identical. -/
def setSecretAddStep {σ : Type} (ops : SMOps σ) (s : σ)
    (projectID : String) (payload : Bytes) (remoteKey : String)
    (v : Option (Option Bytes)) (tr : List SMCall) :
    Outcome Unit × σ × List SMCall :=
  if setSecretShortCircuit payload v then (.ok (), s, tr)
  else
    let a := ops.addVersion s remoteKey payload
    let tr1 := tr ++ [SMCall.addVersion (secretResourceName projectID remoteKey) payload]
    match a.1 with
    | .error e => (.err e, a.2, tr1)
    | .ok _ => (.ok (), a.2, tr1)

/-- Version-fetch step of `SetSecret` (lines 271-281 of the source): read the
`latest` version; a not-found API status is tolerated, any other error is
returned. -/
def setSecretVersionStep {σ : Type} (ops : SMOps σ) (s : σ)
    (projectID : String) (payload : Bytes) (remoteKey : String)
    (tr : List SMCall) : Outcome Unit × σ × List SMCall :=
  let a := ops.accessLatest s remoteKey
  let tr1 := tr ++ [SMCall.accessVersion
      (secretResourceName projectID remoteKey ++ "/versions/latest")]
  match a.1 with
  | .error e =>
    match asAPIError e with
    | some GrpcCode.notFound => setSecretAddStep ops a.2 projectID payload remoteKey none tr1
    | some GrpcCode.other => (.err e, a.2, tr1)
    | none => (.err e, a.2, tr1)
  | .ok v => setSecretAddStep ops a.2 projectID payload remoteKey (some v) tr1

/-- Ownership check of `SetSecret` (lines 265-269): `manager, ok :=
gcpSecret.Labels["managed-by"]; if !ok || manager != "external-secrets"`
fail with the not-managed error. -/
def setSecretOwnedStep {σ : Type} (ops : SMOps σ) (s : σ)
    (projectID : String) (payload : Bytes) (remoteKey : String)
    (sec : GSecret) (tr : List SMCall) : Outcome Unit × σ × List SMCall :=
  match goMapLookup sec.labels "managed-by" with
  | some m =>
    if m = "external-secrets" then
      setSecretVersionStep ops s projectID payload remoteKey tr
    else (.err (notManagedError remoteKey), s, tr)
  | none => (.err (notManagedError remoteKey), s, tr)

/-- Embedding of `ProviderGCP.SetSecret`.  The initial `GetSecret` read:
a result that unwraps to a NotFound API status triggers `CreateSecret` with
the ownership label and automatic replication; any other API status is
returned; an error carrying no API status skips the whole `if` (the
`errors.As` guard fails), so the code falls through to
`gcpSecret.Labels` with `gcpSecret == nil` and panics. -/
def SetSecret {σ : Type} (ops : SMOps σ) (s0 : σ)
    (projectID : String) (payload : Bytes) (remoteKey : String) :
    Outcome Unit × σ × List SMCall :=
  let g := ops.getSecret s0 remoteKey
  let tr0 := [SMCall.getSecret (secretResourceName projectID remoteKey)]
  match g.1 with
  | .ok sec => setSecretOwnedStep ops g.2 projectID payload remoteKey sec tr0
  | .error e =>
    match asAPIError e with
    | some GrpcCode.notFound =>
      let c := ops.createSecret g.2 remoteKey mgLabels Replication.automatic
      let tr1 := tr0 ++ [SMCall.createSecret ("projects/" ++ projectID)
          remoteKey mgLabels Replication.automatic]
      match c.1 with
      | .ok sec => setSecretOwnedStep ops c.2 projectID payload remoteKey sec tr1
      | .error e2 => (.err e2, c.2, tr1)
    | some GrpcCode.other => (.err e, g.2, tr0)
    | none => (.panicked, g.2, tr0)

/- ### A concrete in-memory remote store -/

/-- A secret as stored remotely: its labels and its versions, oldest first
(`latest` is the last element). -/
structure RemoteSecret where
  labels : List (String × String)
  versions : List Bytes
  deriving DecidableEq, Repr

/-- The remote store: an association list from remote key to secret. -/
abbrev Remote : Type := List (String × RemoteSecret)

/-- Lookup of a secret by remote key. -/
def findSec : Remote → String → Option RemoteSecret
  | [], _ => none
  | (k, v) :: t, key => if key = k then some v else findSec t key

/-- Replace the (first) binding of a remote key. -/
def updSec : Remote → String → RemoteSecret → Remote
  | [], _, _ => []
  | (k, v) :: t, key, v' => if key = k then (k, v') :: t else (k, v) :: updSec t key v'

/-- Number of stored versions of a key (0 when the secret is absent). -/
def numVersions (s : Remote) (key : String) : Nat :=
  match findSec s key with
  | some sec => sec.versions.length
  | none => 0

/-- In-memory instantiation of the client operations with the documented
Secret Manager semantics: missing secrets and missing versions answer with a
NotFound API status, `CreateSecret` inserts an empty secret with the given
labels, `AddSecretVersion` appends. -/
def smFakeOps : SMOps Remote where
  getSecret := fun s k =>
    match findSec s k with
    | none => (.error (.api .notFound), s)
    | some sec => (.ok ⟨sec.labels⟩, s)
  createSecret := fun s k labels _repl =>
    match findSec s k with
    | some _ => (.error (.api .other), s)
    | none => (.ok ⟨labels⟩, (k, ⟨labels, []⟩) :: s)
  accessLatest := fun s k =>
    match findSec s k with
    | none => (.error (.api .notFound), s)
    | some sec =>
      match sec.versions.getLast? with
      | none => (.error (.api .notFound), s)
      | some d => (.ok (some d), s)
  addVersion := fun s k d =>
    match findSec s k with
    | none => (.error (.api .notFound), s)
    | some sec => (.ok (), updSec s k ⟨sec.labels, sec.versions ++ [d]⟩)

/-- Client whose initial read answers with a chosen result and whose other
operations succeed; used to drive `SetSecret` through its read-error paths. -/
def injectGetOps (r : Except GoError GSecret) : SMOps Unit where
  getSecret := fun s _ => (r, s)
  createSecret := fun s _ labels _ => (.ok ⟨labels⟩, s)
  accessLatest := fun s _ => (.error (.api .notFound), s)
  addVersion := fun s _ _ => (.ok (), s)

/- ### Lemmas about `SetSecret` over the in-memory remote -/

theorem findSec_updSec (s : Remote) (k : String) (v : RemoteSecret)
    (h : (findSec s k).isSome) : findSec (updSec s k v) k = some v := by
  induction s with
  | nil => simp [findSec] at h
  | cons hd tl ih =>
    obtain ⟨k', v'⟩ := hd
    by_cases hk : k = k'
    · simp [findSec, updSec, hk]
    · simp only [findSec, updSec, hk, if_false, if_neg hk] at h ⊢
      exact ih h

/-- An owned secret whose latest version already equals the payload makes
`SetSecret` succeed after just the read and the version fetch. -/
theorem SetSecret_owned_latest (s : Remote) (projectID remoteKey : String)
    (payload : Bytes) (sec : RemoteSecret)
    (hfind : findSec s remoteKey = some sec)
    (hown : goMapLookup sec.labels "managed-by" = some "external-secrets")
    (hlast : sec.versions.getLast? = some payload) :
    SetSecret smFakeOps s projectID payload remoteKey =
      (.ok (), s,
        [SMCall.getSecret (secretResourceName projectID remoteKey),
         SMCall.accessVersion
           (secretResourceName projectID remoteKey ++ "/versions/latest")]) := by
  simp [SetSecret, smFakeOps, hfind, setSecretOwnedStep, hown,
    setSecretVersionStep, hlast, setSecretAddStep, setSecretShortCircuit]

/-- Shape of the remote state after one `SetSecret` call: either the state is
unchanged and no version was appended, or the secret now exists, carries the
ownership label, and its latest version is the pushed payload.  In either
case at most one version was added. -/
theorem SetSecret_first_shape (s : Remote) (projectID remoteKey : String)
    (payload : Bytes) :
    (((SetSecret smFakeOps s projectID payload remoteKey).2.1 = s ∧
      (∀ n d, SMCall.addVersion n d ∉
        (SetSecret smFakeOps s projectID payload remoteKey).2.2)) ∨
     (∃ sec', findSec (SetSecret smFakeOps s projectID payload remoteKey).2.1
          remoteKey = some sec' ∧
        goMapLookup sec'.labels "managed-by" = some "external-secrets" ∧
        sec'.versions.getLast? = some payload)) ∧
    numVersions (SetSecret smFakeOps s projectID payload remoteKey).2.1 remoteKey ≤
      numVersions s remoteKey + 1 := by
  match hfind : findSec s remoteKey with
  | none =>
    constructor
    · right
      refine ⟨⟨mgLabels, [payload]⟩, ?_, by simp [goMapLookup, mgLabels], by simp⟩
      simp [SetSecret, smFakeOps, hfind, setSecretOwnedStep, mgLabels,
        goMapLookup, setSecretVersionStep, findSec, asAPIError,
        setSecretAddStep, setSecretShortCircuit, updSec]
    · simp [SetSecret, smFakeOps, hfind, setSecretOwnedStep, mgLabels,
        goMapLookup, setSecretVersionStep, findSec, asAPIError,
        setSecretAddStep, setSecretShortCircuit, updSec, numVersions]
  | some sec =>
    match hlook : goMapLookup sec.labels "managed-by" with
    | none =>
      constructor
      · left
        simp [SetSecret, smFakeOps, hfind, setSecretOwnedStep, hlook]
      · simp [SetSecret, smFakeOps, hfind, setSecretOwnedStep, hlook, numVersions]
    | some m =>
      by_cases hm : m = "external-secrets"
      · subst hm
        match hlast : sec.versions.getLast? with
        | none =>
          have hnil : sec.versions = [] := by
            cases hv : sec.versions with
            | nil => rfl
            | cons a t => rw [hv] at hlast; simp [List.getLast?] at hlast
          constructor
          · right
            refine ⟨⟨sec.labels, sec.versions ++ [payload]⟩, ?_, hlook, by simp⟩
            simp [SetSecret, smFakeOps, hfind, setSecretOwnedStep, hlook,
              setSecretVersionStep, hlast, asAPIError, setSecretAddStep,
              setSecretShortCircuit]
            exact findSec_updSec s remoteKey _ (by simp [hfind])
          · simp [SetSecret, smFakeOps, hfind, setSecretOwnedStep, hlook,
              setSecretVersionStep, hlast, asAPIError, setSecretAddStep,
              setSecretShortCircuit, numVersions,
              findSec_updSec s remoteKey _ (by simp [hfind]), hnil]
        | some d =>
          by_cases hp : payload = d
          · subst hp
            constructor
            · left
              simp [SetSecret_owned_latest s projectID remoteKey payload sec
                hfind hlook hlast]
            · simp [SetSecret_owned_latest s projectID remoteKey payload sec
                hfind hlook hlast]
          · constructor
            · right
              refine ⟨⟨sec.labels, sec.versions ++ [payload]⟩, ?_, hlook, by simp⟩
              simp [SetSecret, smFakeOps, hfind, setSecretOwnedStep, hlook,
                setSecretVersionStep, hlast, asAPIError, setSecretAddStep,
                setSecretShortCircuit, hp]
              exact findSec_updSec s remoteKey _ (by simp [hfind])
            · simp [SetSecret, smFakeOps, hfind, setSecretOwnedStep, hlook,
                setSecretVersionStep, hlast, asAPIError, setSecretAddStep,
                setSecretShortCircuit, hp, numVersions,
                findSec_updSec s remoteKey _ (by simp [hfind])]
      · constructor
        · left
          simp [SetSecret, smFakeOps, hfind, setSecretOwnedStep, hlook, hm]
        · simp [SetSecret, smFakeOps, hfind, setSecretOwnedStep, hlook, hm,
            numVersions]

/-- C1: a pre-existing remote secret whose labels lack the ownership marker
`managed-by=external-secrets` (or carry a different value for it) makes
`SetSecret` return the not-managed error after the initial read alone: no
`AddSecretVersion` call is issued and the remote state is unchanged. -/
theorem SetSecret_not_managed (s : Remote) (projectID remoteKey : String)
    (payload : Bytes) (sec : RemoteSecret)
    (hfind : findSec s remoteKey = some sec)
    (hlab : goMapLookup sec.labels "managed-by" ≠ some "external-secrets") :
    SetSecret smFakeOps s projectID payload remoteKey =
      (.err (notManagedError remoteKey), s,
        [SMCall.getSecret (secretResourceName projectID remoteKey)]) ∧
    (∀ n d, SMCall.addVersion n d ∉
      (SetSecret smFakeOps s projectID payload remoteKey).2.2) := by
  have hmain : SetSecret smFakeOps s projectID payload remoteKey =
      (.err (notManagedError remoteKey), s,
        [SMCall.getSecret (secretResourceName projectID remoteKey)]) := by
    match hlook : goMapLookup sec.labels "managed-by" with
    | none => simp [SetSecret, smFakeOps, hfind, setSecretOwnedStep, hlook]
    | some m =>
      have hm : m ≠ "external-secrets" := by
        intro h
        exact hlab (h ▸ hlook)
      simp [SetSecret, smFakeOps, hfind, setSecretOwnedStep, hlook, hm]
  refine ⟨hmain, ?_⟩
  simp [hmain]

theorem SetSecret_not_managed_witness :
    SetSecret smFakeOps [("db", ⟨[("team", "x")], [[1, 2]]⟩)] "p1" [3] "db" =
      (.err (notManagedError "db"), [("db", ⟨[("team", "x")], [[1, 2]]⟩)],
        [SMCall.getSecret (secretResourceName "p1" "db")]) :=
  (SetSecret_not_managed [("db", ⟨[("team", "x")], [[1, 2]]⟩)] "p1" "db" [3]
    ⟨[("team", "x")], [[1, 2]]⟩ (by decide) (by decide)).1

/-- C2 counterexample: a remote secret whose latest version is byte-identical
to the incoming payload but whose labels lack the ownership marker.  The
claimed short-circuit success does not happen: `SetSecret` fails with the
not-managed error, so the claim as stated (without an ownership condition)
is false. -/
theorem SetSecret_idem_counterexample :
    (smFakeOps.accessLatest [("k", ⟨[], [[7]]⟩)] "k").1 = .ok (some [7]) ∧
    (SetSecret smFakeOps [("k", ⟨[], [[7]]⟩)] "p" [7] "k").1 ≠ .ok () ∧
    (SetSecret smFakeOps [("k", ⟨[], [[7]]⟩)] "p" [7] "k").1 =
      .err (notManagedError "k") := by decide

/-- C2 (amended): if the remote secret exists, is owned, and its latest
version is byte-identical to the payload, `SetSecret` succeeds without an
`AddSecretVersion` call; and for any initial remote state two successive
`SetSecret` calls with the same key and payload add at most one version, the
second call issuing no `AddSecretVersion` and leaving the state unchanged. -/
theorem SetSecret_idempotent (s : Remote) (projectID remoteKey : String)
    (payload : Bytes) :
    (∀ sec, findSec s remoteKey = some sec →
      goMapLookup sec.labels "managed-by" = some "external-secrets" →
      sec.versions.getLast? = some payload →
      SetSecret smFakeOps s projectID payload remoteKey =
        (.ok (), s,
          [SMCall.getSecret (secretResourceName projectID remoteKey),
           SMCall.accessVersion
             (secretResourceName projectID remoteKey ++ "/versions/latest")])) ∧
    ((SetSecret smFakeOps (SetSecret smFakeOps s projectID payload remoteKey).2.1
        projectID payload remoteKey).2.1 =
      (SetSecret smFakeOps s projectID payload remoteKey).2.1 ∧
     (∀ n d, SMCall.addVersion n d ∉
        (SetSecret smFakeOps (SetSecret smFakeOps s projectID payload remoteKey).2.1
          projectID payload remoteKey).2.2) ∧
     numVersions (SetSecret smFakeOps s projectID payload remoteKey).2.1 remoteKey ≤
       numVersions s remoteKey + 1) := by
  constructor
  · intro sec hfind hown hlast
    exact SetSecret_owned_latest s projectID remoteKey payload sec hfind hown hlast
  · obtain ⟨hshape, hbound⟩ := SetSecret_first_shape s projectID remoteKey payload
    rcases hshape with ⟨hst, hnoadd⟩ | ⟨sec', hfind', hown', hlast'⟩
    · have e1 : SetSecret smFakeOps
          (SetSecret smFakeOps s projectID payload remoteKey).2.1
          projectID payload remoteKey =
          SetSecret smFakeOps s projectID payload remoteKey := by rw [hst]
      rw [e1]
      exact ⟨rfl, hnoadd, hbound⟩
    · have h2 := SetSecret_owned_latest
        (SetSecret smFakeOps s projectID payload remoteKey).2.1
        projectID remoteKey payload sec' hfind' hown' hlast'
      rw [h2]
      refine ⟨rfl, ?_, hbound⟩
      intro n d
      simp

/-- C7: the three classes of result of `SetSecret`'s initial read, evaluated
concretely.  A NotFound API status triggers `CreateSecret` with the ownership
label and automatic replication; another API status is returned verbatim
before any further call; but a read error carrying no API status is neither
returned nor treated as not-found — the `errors.As` guard fails, the nil
secret pointer survives, and the label access panics.  The last conjunct is
the divergence from the claim (and from the spec), which says any non-NotFound
read error is returned. -/
theorem SetSecret_read_error_paths :
    (SetSecret (injectGetOps (.error (.api .notFound))) () "p1" [1] "db" =
      (.ok (), (),
        [SMCall.getSecret (secretResourceName "p1" "db"),
         SMCall.createSecret "projects/p1" "db" mgLabels Replication.automatic,
         SMCall.accessVersion (secretResourceName "p1" "db" ++ "/versions/latest"),
         SMCall.addVersion (secretResourceName "p1" "db") [1]])) ∧
    (SetSecret (injectGetOps (.error (.api .other))) () "p1" [1] "db" =
      (.err (.api .other), (),
        [SMCall.getSecret (secretResourceName "p1" "db")])) ∧
    (SetSecret (injectGetOps (.error (.plain "transport failure"))) () "p1" [1] "db" =
      (.panicked, (),
        [SMCall.getSecret (secretResourceName "p1" "db")])) := by decide

theorem SetSecret_idempotent_witness :
    SetSecret smFakeOps [("db", ⟨mgLabels, [[9]]⟩)] "p1" [9] "db" =
      (.ok (), [("db", ⟨mgLabels, [[9]]⟩)],
        [SMCall.getSecret (secretResourceName "p1" "db"),
         SMCall.accessVersion
           (secretResourceName "p1" "db" ++ "/versions/latest")]) :=
  (SetSecret_idempotent [("db", ⟨mgLabels, [[9]]⟩)] "p1" "db" [9]).1
    ⟨mgLabels, [[9]]⟩ (by decide) (by decide) (by decide)

/- ### Store model, credential resolution, and the connection guard -/

/-- The `SecretAccessKey` selector of the GCPSM auth block: secret name,
optional namespace (a `*string` in Go), and key within the secret. -/
structure SecretKeySelector where
  name : String
  nspace : Option String
  key : String
  deriving DecidableEq

/-- The GCPSM auth block; only the `SecretRef` strategy carries data the
embedded code inspects. -/
structure GCPSMAuth where
  secretRef : Option SecretKeySelector
  deriving DecidableEq

structure GCPSMProvider where
  projectID : String
  auth : GCPSMAuth
  deriving DecidableEq

/-- A store spec; the `Provider` pointer and its `GCPSM` field are collapsed
into one option (`NewClient` rejects a nil at either level with the same
error, and the remaining code never separates them). -/
structure StoreSpec where
  gcpsm : Option GCPSMProvider
  deriving DecidableEq

structure GenericStore where
  spec : Option StoreSpec
  kind : String
  deriving DecidableEq

def clusterSecretStoreKind : String := "ClusterSecretStore"

structure NamespacedName where
  name : String
  nspace : String
  deriving DecidableEq

/-- A Kubernetes secret as the credential fetch sees it: its data map. -/
structure KubeSecret where
  data : List (String × Bytes)
  deriving DecidableEq

/-- Credential fetch of `serviceAccountTokenSource` once the object key is
fixed: read the secret, extract the access key, parse it as service-account
JSON (`google.JWTConfigFromJSON`, supplied as an oracle producing an opaque
token source modelled as a `String`). -/
def fetchSAKCredentials (kubeGet : NamespacedName → Except GoError KubeSecret)
    (jwtConfig : Bytes → Except GoError String)
    (objectKey : NamespacedName) (key : String) :
    Option String × Option GoError :=
  match kubeGet objectKey with
  | .error e => (none, some (.wrap errFetchSAKSecret e))
  | .ok csec =>
    match goMapLookupB csec.data key with
    | none => (none, some (.plain errMissingSAK))
    | some credentials =>
      if credentials = [] then (none, some (.plain errMissingSAK))
      else
        match jwtConfig credentials with
        | .error e => (none, some (.wrap errUnableProcessJSONCredentials e))
        | .ok ts => (some ts, none)

/-- Embedding of `serviceAccountTokenSource`.  Returns the Go result pair
`(ts, err)` together with the list of Kubernetes `Get` calls issued.  Only a
ClusterSecretStore may (and then must) set the credential secret's
namespace; otherwise the caller's namespace is used. -/
def serviceAccountTokenSource (store : GenericStore)
    (kubeGet : NamespacedName → Except GoError KubeSecret)
    (jwtConfig : Bytes → Except GoError String)
    (ns : String) :
    (Option String × Option GoError) × List NamespacedName :=
  match store.spec with
  | none => ((none, some (.plain errMissingStoreSpec)), [])
  | some sp =>
    match sp.gcpsm with
    | none => ((none, some (.plain errMissingStoreSpec)), [])
    | some prov =>
      match prov.auth.secretRef with
      | none => ((none, none), [])
      | some sr =>
        if store.kind = clusterSecretStoreKind ∧ sr.name ≠ "" ∧ sr.nspace = none then
          ((none, some (.plain errInvalidClusterStoreMissingSAKNamespace)), [])
        else
          (fetchSAKCredentials kubeGet jwtConfig
            (if store.kind = clusterSecretStoreKind ∧ sr.name ≠ "" then
              ⟨sr.name, sr.nspace.getD ns⟩
            else ⟨sr.name, ns⟩) sr.key,
           [if store.kind = clusterSecretStoreKind ∧ sr.name ≠ "" then
              ⟨sr.name, sr.nspace.getD ns⟩
            else ⟨sr.name, ns⟩])

/-- The short-circuit step of `getTokenSource`: a strategy result is taken if
it yields a non-nil token source or a non-nil error (`if ts != nil || err !=
nil`); otherwise the next strategy is consulted. -/
def gtsStep (r : (Option String × Option GoError) × List NamespacedName)
    (wiRes ambRes : Option String × Option GoError) :
    (Option String × Option GoError) × List NamespacedName :=
  if r.1.1.isSome ∨ r.1.2.isSome then r
  else if wiRes.1.isSome ∨ wiRes.2.isSome then (wiRes, r.2)
  else (ambRes, r.2)

/-- Embedding of `gClient.getTokenSource`: secret-reference strategy first,
then workload identity, then `google.DefaultTokenSource` (the latter two as
oracle results, since their implementations live outside this package). -/
def getTokenSource (store : GenericStore)
    (kubeGet : NamespacedName → Except GoError KubeSecret)
    (jwtConfig : Bytes → Except GoError String)
    (ns : String)
    (wiRes ambRes : Option String × Option GoError) :
    (Option String × Option GoError) × List NamespacedName :=
  gtsStep (serviceAccountTokenSource store kubeGet jwtConfig ns) wiRes ambRes

/-- Event on the process-wide mutex `useMu`. -/
inductive MuEv where
  | lock
  | unlock
  deriving DecidableEq, Repr

/-- The part of `NewClient` executed after `useMu.Lock()` succeeds and the
workload-identity helper is initialized: resolve the token source, eagerly
validate it with `ts.Token()`, then construct the transport client.  Every
leaf below runs with the lock held, so each trace starts with `lock`; error
returns unlock first.  A nil token source with a nil error would make
`ts.Token()` dereference nil while the lock is held. -/
def newClientAfterLock (ts : Option String × Option GoError)
    (tokenOf : String → Except GoError Unit)
    (smNew : Except GoError Unit) : Outcome Unit × List MuEv :=
  match ts.2 with
  | some e => (.err (.wrap errUnableCreateGCPSMClient e), [MuEv.lock, MuEv.unlock])
  | none =>
    match ts.1 with
    | none => (.panicked, [MuEv.lock])
    | some t =>
      match tokenOf t with
      | .error e => (.err (.wrap errUnableGetCredentials e), [MuEv.lock, MuEv.unlock])
      | .ok _ =>
        match smNew with
        | .error e => (.err (.wrap errUnableCreateGCPSMClient e), [MuEv.lock, MuEv.unlock])
        | .ok _ => (.ok (), [MuEv.lock])

/-- Embedding of `ProviderGCP.NewClient`, tracking the mutex events it
performs.  The store-spec nil check precedes the lock; everything after runs
under it. -/
def NewClient (store : GenericStore)
    (kubeGet : NamespacedName → Except GoError KubeSecret)
    (jwtConfig : Bytes → Except GoError String)
    (ns : String)
    (wiInit : Except GoError Unit)
    (wiRes ambRes : Option String × Option GoError)
    (tokenOf : String → Except GoError Unit)
    (smNew : Except GoError Unit) : Outcome Unit × List MuEv :=
  match store.spec with
  | none => (.err (.plain errGCPSMStore), [])
  | some sp =>
    match sp.gcpsm with
    | none => (.err (.plain errGCPSMStore), [])
    | some _ =>
      match wiInit with
      | .error _ =>
        (.err (.plain "unable to initialize workload identity"),
          [MuEv.lock, MuEv.unlock])
      | .ok _ =>
        newClientAfterLock
          (getTokenSource store kubeGet jwtConfig ns wiRes ambRes).1
          tokenOf smNew

/-- Embedding of `ProviderGCP.Close`: close the transport client, close the
inner client when set (overwriting the first error, as the source does),
unlock `useMu` unconditionally, then report any close error. -/
def ProviderClose (smCloseRes gCloseRes : Except GoError Unit)
    (gClientSet : Bool) : Except GoError Unit × List MuEv :=
  ((match (if gClientSet then gCloseRes else smCloseRes) with
    | .error e => Except.error (.wrap errClientClose e)
    | .ok _ => Except.ok ()), [MuEv.unlock])

/- ### Claim theorems: credential resolution and the connection guard -/

/-- C8: for a cluster-scoped store whose secret-reference auth names a
credential secret, a missing explicit namespace is a configuration error
issued before any Kubernetes read; an explicit namespace is the one used for
the credential lookup. -/
theorem serviceAccountTokenSource_cluster_namespace
    (store : GenericStore)
    (kubeGet : NamespacedName → Except GoError KubeSecret)
    (jwtConfig : Bytes → Except GoError String) (ns : String)
    (sp : StoreSpec) (prov : GCPSMProvider) (sr : SecretKeySelector)
    (hspec : store.spec = some sp) (hprov : sp.gcpsm = some prov)
    (href : prov.auth.secretRef = some sr)
    (hkind : store.kind = clusterSecretStoreKind) (hname : sr.name ≠ "") :
    (sr.nspace = none →
      serviceAccountTokenSource store kubeGet jwtConfig ns =
        ((none, some (.plain errInvalidClusterStoreMissingSAKNamespace)), [])) ∧
    (∀ nsx, sr.nspace = some nsx →
      (serviceAccountTokenSource store kubeGet jwtConfig ns).2 =
        [⟨sr.name, nsx⟩]) := by
  constructor
  · intro hns
    simp [serviceAccountTokenSource, hspec, hprov, href, hkind, hname, hns]
  · intro nsx hns
    simp [serviceAccountTokenSource, hspec, hprov, href, hkind, hname, hns]

def demoSelector : SecretKeySelector := ⟨"gcp-creds", none, "sa.json"⟩

def demoClusterStore : GenericStore :=
  ⟨some ⟨some ⟨"p1", ⟨some demoSelector⟩⟩⟩, "ClusterSecretStore"⟩

def demoKubeGet : NamespacedName → Except GoError KubeSecret :=
  fun _ => .ok ⟨[("sa.json", [1, 2, 3])]⟩

def demoJwtConfig : Bytes → Except GoError String :=
  fun _ => .ok "sa-token-source"

theorem serviceAccountTokenSource_cluster_namespace_witness :
    serviceAccountTokenSource demoClusterStore demoKubeGet demoJwtConfig "caller-ns" =
      ((none, some (.plain errInvalidClusterStoreMissingSAKNamespace)), []) :=
  (serviceAccountTokenSource_cluster_namespace demoClusterStore demoKubeGet
    demoJwtConfig "caller-ns" ⟨some ⟨"p1", ⟨some demoSelector⟩⟩⟩
    ⟨"p1", ⟨some demoSelector⟩⟩ demoSelector rfl rfl rfl rfl (by decide)).1 rfl

/-- C4: the credential chain tries secret-reference, then workload identity,
then the ambient default, short-circuiting on the first strategy yielding a
non-nil token source or a non-nil error and falling through exactly on a
(nil, nil) result; in particular a valid secret reference wins over a valid
workload identity. -/
theorem getTokenSource_chain (store : GenericStore)
    (kubeGet : NamespacedName → Except GoError KubeSecret)
    (jwtConfig : Bytes → Except GoError String) (ns : String)
    (wiRes ambRes : Option String × Option GoError) :
    ((serviceAccountTokenSource store kubeGet jwtConfig ns).1 ≠ (none, none) →
      (getTokenSource store kubeGet jwtConfig ns wiRes ambRes).1 =
        (serviceAccountTokenSource store kubeGet jwtConfig ns).1) ∧
    ((serviceAccountTokenSource store kubeGet jwtConfig ns).1 = (none, none) →
      wiRes ≠ (none, none) →
      (getTokenSource store kubeGet jwtConfig ns wiRes ambRes).1 = wiRes) ∧
    ((serviceAccountTokenSource store kubeGet jwtConfig ns).1 = (none, none) →
      wiRes = (none, none) →
      (getTokenSource store kubeGet jwtConfig ns wiRes ambRes).1 = ambRes) ∧
    (∀ ts wts,
      (serviceAccountTokenSource store kubeGet jwtConfig ns).1 = (some ts, none) →
      wiRes = (some wts, none) →
      (getTokenSource store kubeGet jwtConfig ns wiRes ambRes).1 = (some ts, none)) := by
  have key : ∀ p : Option String × Option GoError,
      p ≠ (none, none) → (p.1.isSome ∨ p.2.isSome) := by
    intro p hp
    obtain ⟨a, b⟩ := p
    cases a <;> cases b <;> simp_all
  refine ⟨?_, ?_, ?_, ?_⟩
  · intro h
    simp only [getTokenSource, gtsStep]
    rw [if_pos (key _ h)]
  · intro h hw
    simp only [getTokenSource, gtsStep]
    rw [if_neg (by rw [h]; simp), if_pos (key _ hw)]
  · intro h hw
    simp only [getTokenSource, gtsStep]
    rw [if_neg (by rw [h]; simp), if_neg (by rw [hw]; simp)]
  · intro ts wts h hw
    have h1 : (serviceAccountTokenSource store kubeGet jwtConfig ns).1 ≠ (none, none) := by
      rw [h]
      simp
    simp only [getTokenSource, gtsStep]
    rw [if_pos (key _ h1)]
    exact h

def demoNsStore : GenericStore :=
  ⟨some ⟨some ⟨"p1", ⟨some demoSelector⟩⟩⟩, "SecretStore"⟩

theorem getTokenSource_chain_witness :
    (getTokenSource demoNsStore demoKubeGet demoJwtConfig "ns"
      (some "wi-token-source", none) (none, none)).1 =
      (some "sa-token-source", none) :=
  (getTokenSource_chain demoNsStore demoKubeGet demoJwtConfig "ns"
      (some "wi-token-source", none) (none, none)).2.2.2
    "sa-token-source" "wi-token-source" (by decide) rfl

/-- Every leaf of the post-lock part of `NewClient` either returns an error
with the lock released, panics with the lock held, or succeeds with the lock
held. -/
theorem newClientAfterLock_shape (ts : Option String × Option GoError)
    (tokenOf : String → Except GoError Unit) (smNew : Except GoError Unit) :
    (∀ e, (newClientAfterLock ts tokenOf smNew).1 = .err e →
      (newClientAfterLock ts tokenOf smNew).2 = [MuEv.lock, MuEv.unlock]) ∧
    ((newClientAfterLock ts tokenOf smNew).1 = .ok () →
      (newClientAfterLock ts tokenOf smNew).2 = [MuEv.lock]) := by
  obtain ⟨t, e⟩ := ts
  cases e with
  | some e' => simp [newClientAfterLock]
  | none =>
    cases t with
    | none => simp [newClientAfterLock]
    | some t' =>
      cases htok : tokenOf t' with
      | error e' => simp [newClientAfterLock, htok]
      | ok _ =>
        cases smNew with
        | error e' => simp [newClientAfterLock, htok]
        | ok _ => simp [newClientAfterLock, htok]

/-- C3: every error return of `NewClient` leaves the mutex with a balanced
trace — either it never locked (the pre-lock spec check) or it locked and
unlocked; a successful `NewClient` returns with exactly the lock event
outstanding, and `Close` always emits the unlock. -/
theorem NewClient_lock_discipline (store : GenericStore)
    (kubeGet : NamespacedName → Except GoError KubeSecret)
    (jwtConfig : Bytes → Except GoError String) (ns : String)
    (wiInit : Except GoError Unit)
    (wiRes ambRes : Option String × Option GoError)
    (tokenOf : String → Except GoError Unit)
    (smNew : Except GoError Unit) :
    (∀ e, (NewClient store kubeGet jwtConfig ns wiInit wiRes ambRes tokenOf smNew).1 = .err e →
      (NewClient store kubeGet jwtConfig ns wiInit wiRes ambRes tokenOf smNew).2 = [] ∨
      (NewClient store kubeGet jwtConfig ns wiInit wiRes ambRes tokenOf smNew).2 =
        [MuEv.lock, MuEv.unlock]) ∧
    ((NewClient store kubeGet jwtConfig ns wiInit wiRes ambRes tokenOf smNew).1 = .ok () →
      (NewClient store kubeGet jwtConfig ns wiInit wiRes ambRes tokenOf smNew).2 =
        [MuEv.lock] ∧
      ∀ c1 c2 b, (ProviderClose c1 c2 b).2 = [MuEv.unlock]) := by
  obtain ⟨spec, kind⟩ := store
  cases spec with
  | none => simp [NewClient]
  | some sp =>
    cases hg : sp.gcpsm with
    | none => simp [NewClient, hg]
    | some prov =>
      cases wiInit with
      | error e' => simp [NewClient, hg]
      | ok u =>
        have hshape := newClientAfterLock_shape
          (getTokenSource ⟨some sp, kind⟩ kubeGet jwtConfig ns wiRes ambRes).1
          tokenOf smNew
        have hN : NewClient ⟨some sp, kind⟩ kubeGet jwtConfig ns (.ok u)
            wiRes ambRes tokenOf smNew =
            newClientAfterLock
              (getTokenSource ⟨some sp, kind⟩ kubeGet jwtConfig ns wiRes ambRes).1
              tokenOf smNew := by
          simp [NewClient, hg]
        rw [hN]
        constructor
        · intro e he
          right
          exact hshape.1 e he
        · intro hok
          refine ⟨hshape.2 hok, ?_⟩
          intro c1 c2 b
          simp [ProviderClose]

theorem NewClient_lock_discipline_witness :
    (NewClient demoNsStore demoKubeGet demoJwtConfig "ns"
        (.error (.plain "boom")) (none, none) (none, none)
        (fun _ => .ok ()) (.ok ())).2 = [] ∨
    (NewClient demoNsStore demoKubeGet demoJwtConfig "ns"
        (.error (.plain "boom")) (none, none) (none, none)
        (fun _ => .ok ()) (.ok ())).2 = [MuEv.lock, MuEv.unlock] :=
  (NewClient_lock_discipline demoNsStore demoKubeGet demoJwtConfig "ns"
      (.error (.plain "boom")) (none, none) (none, none)
      (fun _ => .ok ()) (.ok ())).1
    (.plain "unable to initialize workload identity") rfl

/- ### Resource-name trimming and bulk discovery -/

/-- Go `strings.Split(s, "/")` at the character level (never returns an empty
list; splitting the empty string yields one empty segment, as in Go). -/
def splitSlash : List Char → List (List Char)
  | [] => [[]]
  | c :: rest =>
    if c = '/' then [] :: splitSlash rest
    else
      match splitSlash rest with
      | [] => [[c]]
      | h :: t => (c :: h) :: t

theorem splitSlash_ne_nil (l : List Char) : splitSlash l ≠ [] := by
  induction l with
  | nil => simp [splitSlash]
  | cons c rest ih =>
    by_cases hc : c = '/'
    · simp [splitSlash, hc]
    · simp only [splitSlash, if_neg hc]
      match h : splitSlash rest with
      | [] => exact absurd h ih
      | a :: t => simp

/-- Embedding of `extractProjectIDNumber`: `strings.Split(name, "/")[1]`.
The `none` result models the index-out-of-range panic raised when the name
has fewer than two slash-separated segments. -/
def extractProjectIDNumber (secretFullName : String) : Option String :=
  ((splitSlash secretFullName.data)[1]?).map String.mk

/-- Go `strings.HasPrefix`. -/
def goHasPre (s p : String) : Bool := p.data.isPrefixOf s.data

/-- Go `strings.TrimPrefix`. -/
def goTrimPre (s p : String) : String :=
  if goHasPre s p then String.mk (s.data.drop p.data.length) else s

/-- Embedding of `trimName`: strip `projects/<id>/secrets/` from a listed
resource name, where `<id>` is the second segment of the name itself (the
numeric project alias the listing API returns), not the configured project
id. -/
def trimName (name : String) : Option String :=
  (extractProjectIDNumber name).map fun pid =>
    goTrimPre name ("projects/" ++ pid ++ "/secrets/")

/-- Go map insert (`secretMap[key] = data`): update-or-append. -/
def upsert : List (String × String) → String → String → List (String × String)
  | [], k, v => [(k, v)]
  | (k', v') :: t, k, v => if k = k' then (k, v) :: t else (k', v') :: upsert t k v

/-- The pagination loop of `findByName` over the already-listed resource
names: trim each name to its logical key, skip it when the matcher rejects
the key or a requested path is not a prefix of the key, otherwise fetch its
payload and record it. -/
def findByNameLoop (matcher : String → Bool) (path : Option String)
    (getData : String → Except GoError String) :
    List String → List (String × String) → Outcome (List (String × String))
  | [], acc => .ok acc
  | name :: rest, acc =>
    match trimName name with
    | none => .panicked
    | some key =>
      if !matcher key || (match path with
          | some p => !goHasPre key p
          | none => false) then
        findByNameLoop matcher path getData rest acc
      else
        match getData key with
        | .error e => .err e
        | .ok d => findByNameLoop matcher path getData rest (upsert acc key d)

/-- Embedding of `findByName` given the server-side listing result (the
entries are whatever the remote filter returned; the loop re-checks the path
prefix client-side).  The result is the discovered map, before the
caller-supplied key-conversion hook of `utils.ConvertKeys` (external to this
package) is applied. -/
def findByName (matcher : String → Bool) (path : Option String)
    (entries : List String) (getData : String → Except GoError String) :
    Outcome (List (String × String)) :=
  findByNameLoop matcher path getData entries []

/-- The pagination loop of `findByTags`: identical to the by-name loop except
that no matcher is consulted — only the client-side path-prefix re-check. -/
def findByTagsLoop (path : Option String)
    (getData : String → Except GoError String) :
    List String → List (String × String) → Outcome (List (String × String))
  | [], acc => .ok acc
  | name :: rest, acc =>
    match trimName name with
    | none => .panicked
    | some key =>
      if (match path with | some p => !goHasPre key p | none => false) then
        findByTagsLoop path getData rest acc
      else
        match getData key with
        | .error e => .err e
        | .ok d => findByTagsLoop path getData rest (upsert acc key d)

/-- Embedding of `findByTags` given the server-side listing result. -/
def findByTags (path : Option String) (entries : List String)
    (getData : String → Except GoError String) :
    Outcome (List (String × String)) :=
  findByTagsLoop path getData entries []

theorem upsert_mem (acc : List (String × String)) (key d k v :  String)
    (h : (k, v) ∈ upsert acc key d) : k = key ∨ (k, v) ∈ acc := by
  induction acc with
  | nil =>
    simp [upsert] at h
    exact Or.inl h.1
  | cons hd t ih =>
    obtain ⟨k', v'⟩ := hd
    by_cases hk : key = k'
    · rw [upsert, if_pos hk] at h
      rcases List.mem_cons.mp h with h1 | h1
      · exact Or.inl (congrArg Prod.fst h1)
      · exact Or.inr (List.mem_cons_of_mem _ h1)
    · rw [upsert, if_neg hk] at h
      rcases List.mem_cons.mp h with h1 | h1
      · exact Or.inr (h1 ▸ List.mem_cons_self _ _)
      · rcases ih h1 with h2 | h2
        · exact Or.inl h2
        · exact Or.inr (List.mem_cons_of_mem _ h2)

theorem findByNameLoop_path (matcher : String → Bool) (p : String)
    (getData : String → Except GoError String) :
    ∀ (entries : List String) (acc out : List (String × String)),
    findByNameLoop matcher (some p) getData entries acc = .ok out →
    (∀ k v, (k, v) ∈ acc → goHasPre k p = true) →
    ∀ k v, (k, v) ∈ out → goHasPre k p = true := by
  intro entries
  induction entries with
  | nil =>
    intro acc out hrun hacc k v hm
    rw [findByNameLoop] at hrun
    cases hrun
    exact hacc k v hm
  | cons name rest ih =>
    intro acc out hrun hacc k v hm
    rw [findByNameLoop] at hrun
    split at hrun
    · cases hrun
    · split at hrun
      · exact ih _ _ hrun hacc k v hm
      · rename_i key _ hcond
        have hkey : goHasPre key p = true := by
          simp only [Bool.or_eq_true, Bool.not_eq_true'] at hcond
          push_neg at hcond
          simpa using hcond.2
        split at hrun
        · cases hrun
        · rename_i d _
          refine ih (upsert acc key d) out hrun ?_ k v hm
          intro k' v' hm'
          rcases upsert_mem acc key d k' v' hm' with h1 | h1
          · exact h1 ▸ hkey
          · exact hacc k' v' h1

theorem findByTagsLoop_path (p : String)
    (getData : String → Except GoError String) :
    ∀ (entries : List String) (acc out : List (String × String)),
    findByTagsLoop (some p) getData entries acc = .ok out →
    (∀ k v, (k, v) ∈ acc → goHasPre k p = true) →
    ∀ k v, (k, v) ∈ out → goHasPre k p = true := by
  intro entries
  induction entries with
  | nil =>
    intro acc out hrun hacc k v hm
    rw [findByTagsLoop] at hrun
    cases hrun
    exact hacc k v hm
  | cons name rest ih =>
    intro acc out hrun hacc k v hm
    rw [findByTagsLoop] at hrun
    split at hrun
    · cases hrun
    · split at hrun
      · exact ih _ _ hrun hacc k v hm
      · rename_i key _ hcond
        have hkey : goHasPre key p = true := by
          simpa using hcond
        split at hrun
        · cases hrun
        · rename_i d _
          refine ih (upsert acc key d) out hrun ?_ k v hm
          intro k' v' hm'
          rcases upsert_mem acc key d k' v' hm' with h1 | h1
          · exact h1 ▸ hkey
          · exact hacc k' v' h1

/-- C6: with a path prefix requested, both search modes only ever record
entries whose trimmed logical key starts with the prefix, regardless of what
the server-side substring filter let through; in particular the listed entry
`projects/123/secrets/foobar/x` is dropped for path `foo/` although its key
contains `foo`. -/
theorem find_path_filter (matcher : String → Bool) (p : String)
    (entries : List String) (getData : String → Except GoError String) :
    (∀ out, findByName matcher (some p) entries getData = .ok out →
      ∀ k v, (k, v) ∈ out → goHasPre k p = true) ∧
    (∀ out, findByTags (some p) entries getData = .ok out →
      ∀ k v, (k, v) ∈ out → goHasPre k p = true) ∧
    findByName (fun _ => true) (some "foo/")
      ["projects/123/secrets/foobar/x"] (fun _ => .ok "v") = .ok [] ∧
    findByTags (some "foo/") ["projects/123/secrets/foobar/x"]
      (fun _ => .ok "v") = .ok [] := by
  refine ⟨?_, ?_, by decide, by decide⟩
  · intro out hrun
    exact findByNameLoop_path matcher p getData entries [] out hrun
      (by intro k v hm; cases hm)
  · intro out hrun
    exact findByTagsLoop_path p getData entries [] out hrun
      (by intro k v hm; cases hm)

theorem find_path_filter_witness : goHasPre "foo/y" "foo/" = true :=
  (find_path_filter (fun _ => true) "foo/" ["projects/123/secrets/foo/y"]
      (fun _ => .ok "v")).1
    [("foo/y", "v")] (by decide) "foo/y" "v" (by decide)

theorem splitSlash_append (l1 l2 : List Char) (h : '/' ∉ l1) :
    splitSlash (l1 ++ '/' :: l2) = l1 :: splitSlash l2 := by
  induction l1 with
  | nil => simp [splitSlash]
  | cons c t ih =>
    have hc : c ≠ '/' := by
      intro hc
      exact h (hc ▸ List.mem_cons_self c t)
    have ht : '/' ∉ t := fun hm => h (List.mem_cons_of_mem _ hm)
    rw [List.cons_append]
    simp only [splitSlash, if_neg hc, ih ht]

theorem splitSlash_no_slash (l : List Char) (h : '/' ∉ l) :
    splitSlash l = [l] := by
  induction l with
  | nil => simp [splitSlash]
  | cons c t ih =>
    have hc : c ≠ '/' := by
      intro hc
      exact h (hc ▸ List.mem_cons_self c t)
    have ht : '/' ∉ t := fun hm => h (List.mem_cons_of_mem _ hm)
    simp only [splitSlash, if_neg hc, ih ht]

theorem isPrefixOf_append_self (l1 l2 : List Char) :
    l1.isPrefixOf (l1 ++ l2) = true := by
  induction l1 with
  | nil => simp [List.isPrefixOf]
  | cons c t ih => simp [List.isPrefixOf, ih]

/-- C10: `trimName` is total exactly on names with at least two
slash-separated segments.  On a listed resource name
`projects/<id>/secrets/<key>` it returns `<key>`, taking `<id>` from the name
itself; on a name containing no slash the `[1]` index of
`extractProjectIDNumber` is out of bounds (the `none` of the model, a panic
in Go). -/
theorem trimName_segments :
    (∀ id key : String, '/' ∉ id.data →
      trimName ("projects/" ++ id ++ "/secrets/" ++ key) = some key) ∧
    (∀ name : String, '/' ∉ name.data →
      extractProjectIDNumber name = none) := by
  constructor
  · intro id key h
    have hdata : ("projects/" ++ id ++ "/secrets/" ++ key).data =
        "projects".data ++ '/' :: (id.data ++ '/' ::
          ("secrets".data ++ '/' :: key.data)) := by
      have e1 : ("projects/" ++ id ++ "/secrets/" ++ key).data =
          "projects/".data ++ (id.data ++ ("/secrets/".data ++ key.data)) := by
        simp [String.data_append, List.append_assoc]
      have e2 : "projects/".data = "projects".data ++ ['/'] := by decide
      have e3 : "/secrets/".data = '/' :: ("secrets".data ++ ['/']) := by decide
      rw [e1, e2, e3]
      simp [List.append_assoc]
    have hex : extractProjectIDNumber ("projects/" ++ id ++ "/secrets/" ++ key) =
        some id := by
      unfold extractProjectIDNumber
      rw [hdata, splitSlash_append _ _ (by decide), splitSlash_append _ _ h]
      rfl
    unfold trimName
    rw [hex]
    simp only [Option.map_some']
    congr 1
    unfold goTrimPre goHasPre
    have hpd : ("projects/" ++ id ++ "/secrets/" ++ key).data =
        ("projects/" ++ id ++ "/secrets/").data ++ key.data := by
      simp [String.data_append]
    rw [hpd, isPrefixOf_append_self, if_pos rfl, List.drop_left]
  · intro name h
    unfold extractProjectIDNumber
    rw [splitSlash_no_slash name.data h]
    rfl

theorem trimName_segments_witness :
    trimName "projects/123/secrets/foobar/x" = some "foobar/x" ∧
    extractProjectIDNumber "nameonly" = none :=
  ⟨by
    have h := trimName_segments.1 "123" "foobar/x" (by decide)
    simpa using h,
   trimName_segments.2 "nameonly" (by decide)⟩

/- ### JSON payloads and gjson-style property lookup -/

/-- JSON documents (numbers restricted to integers, which is all the claims
exercise). -/
inductive Json where
  | str (s : String)
  | num (n : Int)
  | bool (b : Bool)
  | null
  | obj (fields : List (String × Json))
  | arr (elems : List Json)

def jfind : List (String × Json) → String → Option Json
  | [], _ => none
  | (k, v) :: t, key => if key = k then some v else jfind t key

/-- Walk a parsed document along a list of field names: each segment must
address a field of the current object; the value at the final segment is the
result. -/
def jget (j : Json) (segs : List String) : Option Json :=
  segs.foldl
    (fun acc seg =>
      match acc with
      | some (.obj fs) => jfind fs seg
      | _ => none)
    (some j)

/-- gjson path splitting restricted to object field access: split on
unescaped dots, a backslash making the following character literal.  (The
wildcard, query and array features of gjson are not exercised by `GetSecret`
and are not modelled; segments match field names literally.) -/
def pathSegsAux : List Char → List Char → List String
  | [], cur => [String.mk cur.reverse]
  | c :: rest, cur =>
    if c = '\\' then
      match rest with
      | [] => [String.mk ('\\' :: cur).reverse]
      | d :: rest2 => pathSegsAux rest2 (d :: cur)
    else if c = '.' then String.mk cur.reverse :: pathSegsAux rest []
    else pathSegsAux rest (c :: cur)

def parsePath (p : String) : List String := pathSegsAux p.data []

/-- Go `strings.ReplaceAll(property, ".", "\\.")`, as `GetSecret` performs
before the flat lookup. -/
def escDotsAux : List Char → List Char
  | [] => []
  | c :: rest =>
    if c = '.' then '\\' :: '.' :: escDotsAux rest
    else c :: escDotsAux rest

def escapeDots (s : String) : String := String.mk (escDotsAux s.data)

def skipWs : List Char → List Char
  | [] => []
  | c :: rest =>
    if c = ' ' ∨ c = '\n' ∨ c = '\t' ∨ c = '\r' then skipWs rest else c :: rest

def unescapeChar (c : Char) : Char :=
  if c = 'n' then '\n' else if c = 't' then '\t' else if c = 'r' then '\r' else c

/-- Parse the remainder of a JSON string literal (opening quote consumed). -/
def parseStringLit : List Char → List Char → Option (String × List Char)
  | [], _ => none
  | c :: rest, acc =>
    if c = '"' then some (String.mk acc.reverse, rest)
    else if c = '\\' then
      match rest with
      | [] => none
      | d :: rest2 => parseStringLit rest2 (unescapeChar d :: acc)
    else parseStringLit rest (c :: acc)

def parseDigitsAux : List Char → Nat → Nat × List Char
  | [], acc => (acc, [])
  | c :: rest, acc =>
    if c.isDigit then parseDigitsAux rest (acc * 10 + (c.toNat - '0'.toNat))
    else (acc, c :: rest)

def parseNumber : List Char → Option (Int × List Char)
  | [] => none
  | c :: rest =>
    if c = '-' then
      match rest with
      | d :: _ =>
        if d.isDigit then
          some (-((parseDigitsAux rest 0).1 : Int), (parseDigitsAux rest 0).2)
        else none
      | [] => none
    else if c.isDigit then
      some (((parseDigitsAux (c :: rest) 0).1 : Int), (parseDigitsAux (c :: rest) 0).2)
    else none

mutual

/-- Fueled JSON parser (fuel bounds nesting; `jparse` supplies enough for any
input it is given). -/
def parseVal : Nat → List Char → Option (Json × List Char)
  | 0, _ => none
  | fuel + 1, cs =>
    match skipWs cs with
    | [] => none
    | c :: rest =>
      if c = '"' then
        match parseStringLit rest [] with
        | some (s, r) => some (.str s, r)
        | none => none
      else if c = '\x7b' then parseObjBody fuel rest
      else if c = '[' then parseArrBody fuel rest
      else if c = 't' then
        match rest with
        | 'r' :: 'u' :: 'e' :: r => some (.bool true, r)
        | _ => none
      else if c = 'f' then
        match rest with
        | 'a' :: 'l' :: 's' :: 'e' :: r => some (.bool false, r)
        | _ => none
      else if c = 'n' then
        match rest with
        | 'u' :: 'l' :: 'l' :: r => some (.null, r)
        | _ => none
      else
        match parseNumber (c :: rest) with
        | some (n, r) => some (.num n, r)
        | none => none

def parseObjBody : Nat → List Char → Option (Json × List Char)
  | 0, _ => none
  | fuel + 1, cs =>
    match skipWs cs with
    | '\x7d' :: rest => some (.obj [], rest)
    | cs2 => parseMembers fuel cs2 []

def parseMembers : Nat → List Char → List (String × Json) →
    Option (Json × List Char)
  | 0, _, _ => none
  | fuel + 1, cs, acc =>
    match skipWs cs with
    | '"' :: rest =>
      match parseStringLit rest [] with
      | none => none
      | some (k, rest2) =>
        match skipWs rest2 with
        | ':' :: rest3 =>
          match parseVal fuel rest3 with
          | none => none
          | some (v, rest4) =>
            match skipWs rest4 with
            | ',' :: rest5 => parseMembers fuel rest5 (acc ++ [(k, v)])
            | '\x7d' :: rest5 => some (.obj (acc ++ [(k, v)]), rest5)
            | _ => none
        | _ => none
    | _ => none

def parseArrBody : Nat → List Char → Option (Json × List Char)
  | 0, _ => none
  | fuel + 1, cs =>
    match skipWs cs with
    | ']' :: rest => some (.arr [], rest)
    | cs2 => parseElems fuel cs2 []

def parseElems : Nat → List Char → List Json → Option (Json × List Char)
  | 0, _, _ => none
  | fuel + 1, cs, acc =>
    match parseVal fuel cs with
    | none => none
    | some (v, rest) =>
      match skipWs rest with
      | ',' :: rest2 => parseElems fuel rest2 (acc ++ [v])
      | ']' :: rest2 => some (.arr (acc ++ [v]), rest2)
      | _ => none

end

/-- Parse a JSON document (trailing whitespace tolerated).  A payload that
fails to parse yields no values, matching gjson lookups on invalid JSON. -/
def jparse (s : String) : Option Json :=
  match parseVal (2 * s.data.length + 2) s.data with
  | some (j, rest) =>
    match skipWs rest with
    | [] => some j
    | _ => none
  | none => none

/-- Model of `gjson.Get(payload, path)`: parse the payload and walk the
unescaped path segments through object fields; `none` is a non-existent
result. -/
def gjsonGet (payload : String) (path : String) : Option Json :=
  match jparse payload with
  | some j => jget j (parsePath path)
  | none => none

mutual

/-- Whitespace-free rendering (model of gjson's `Raw` for structured
results). -/
def jRender : Json → String
  | .str s => "\"" ++ s ++ "\""
  | .num n => toString n
  | .bool b => if b then "true" else "false"
  | .null => "null"
  | .obj fs => "\x7b" ++ jRenderFields fs ++ "\x7d"
  | .arr xs => "[" ++ jRenderElems xs ++ "]"

def jRenderFields : List (String × Json) → String
  | [] => ""
  | [(k, v)] => "\"" ++ k ++ "\":" ++ jRender v
  | (k, v) :: rest => "\"" ++ k ++ "\":" ++ jRender v ++ "," ++ jRenderFields rest

def jRenderElems : List Json → String
  | [] => ""
  | [v] => jRender v
  | v :: rest => jRender v ++ "," ++ jRenderElems rest

end

/-- gjson `Result.String()`: the content for strings, decimal for numbers,
`true`/`false` for booleans, empty for null, raw JSON otherwise. -/
def jString : Json → String
  | .str s => s
  | .num n => toString n
  | .bool b => if b then "true" else "false"
  | .null => ""
  | .obj fs => jRender (.obj fs)
  | .arr xs => jRender (.arr xs)

/-- Go `strings.Index(s, ".")` (−1 when absent).  Byte and rune indexing
agree on whether the first dot sits at position 0, which is all `GetSecret`
tests. -/
def goIndexDot (s : String) : Int :=
  match s.data.findIdx? (fun c => c = '.') with
  | some n => (n : Int)
  | none => -1

/-- The shared fallback of the property logic: plain (nested) lookup, with
the key-does-not-exist error when it fails. -/
def getSecretNested (payload : String) (property refKey : String) :
    Except GoError String :=
  match gjsonGet payload property with
  | some v => .ok (jString v)
  | none =>
    .error (.plain ("key " ++ property ++ " does not exist in secret " ++ refKey))

/-- The property-extraction step of `GetSecret` (lines 450-467 of the
source): when the property contains a dot at a positive index, first try the
whole property with dots escaped as one flat key; otherwise — and when the
flat lookup does not exist — use the nested lookup. -/
def getSecretProperty (payload : String) (property refKey : String) :
    Except GoError String :=
  if 0 < goIndexDot property then
    match gjsonGet payload (escapeDots property) with
    | some v => .ok (jString v)
    | none => getSecretNested payload property refKey
  else getSecretNested payload property refKey

/-- Embedding of `ProviderGCP.GetSecret`.  `access` is the
`AccessSecretVersion` oracle keyed by the resource name; its success value is
the payload `Data` (`none` models a nil `Data`). -/
def GetSecret (clientSet : Bool) (projectID : String)
    (access : String → Except GoError (Option String))
    (refKey refVersion refProperty : String) : Except GoError String :=
  if !clientSet ∨ projectID = "" then .error (.plain errUninitalizedGCPProvider)
  else
    match access ("projects/" ++ projectID ++ "/secrets/" ++ refKey ++
        "/versions/" ++ (if refVersion = "" then "latest" else refVersion)) with
    | .error e => .error (.wrap errClientGetSecretAccess e)
    | .ok dataOpt =>
      if refProperty = "" then
        match dataOpt with
        | some d => .ok d
        | none =>
          .error (.plain ("invalid secret received. no secret string for key: " ++ refKey))
      else
        getSecretProperty (dataOpt.getD "") refProperty refKey

theorem pathSegsAux_escDots (l : List Char) (cur : List Char)
    (h : '\\' ∉ l) :
    pathSegsAux (escDotsAux l) cur = [String.mk (cur.reverse ++ l)] := by
  induction l generalizing cur with
  | nil => simp [escDotsAux, pathSegsAux]
  | cons c t ih =>
    have hc : c ≠ '\\' := fun hb => h (hb ▸ List.mem_cons_self c t)
    have ht : '\\' ∉ t := fun hm => h (List.mem_cons_of_mem _ hm)
    by_cases hdot : c = '.'
    · subst hdot
      have e1 : escDotsAux ('.' :: t) = '\\' :: '.' :: escDotsAux t := by
        rw [escDotsAux.eq_def]
        simp
      have e2 : pathSegsAux ('\\' :: '.' :: escDotsAux t) cur =
          pathSegsAux (escDotsAux t) ('.' :: cur) := by
        rw [pathSegsAux.eq_def]
        simp
      rw [e1, e2, ih _ ht]
      simp
    · have e1 : escDotsAux (c :: t) = c :: escDotsAux t := by
        rw [escDotsAux.eq_def]
        simp [hdot]
      have e2 : pathSegsAux (c :: escDotsAux t) cur =
          pathSegsAux (escDotsAux t) (c :: cur) := by
        rw [pathSegsAux.eq_def]
        simp [hc, hdot]
      rw [e1, e2, ih _ ht]
      simp

theorem parsePath_escapeDots (p : String) (h : '\\' ∉ p.data) :
    parsePath (escapeDots p) = [p] := by
  unfold parsePath escapeDots
  rw [pathSegsAux_escDots p.data [] h]
  simp

/-- C5: for a requested property containing a dot at a position greater than
zero, `GetSecret` first consults the flat lookup with all dots escaped —
which, for backslash-free properties, is exactly the whole property string as
a single flat key — and returns its value when it exists; only when the flat
lookup does not exist is the property retried as nested field access, and the
property-not-found error is reported when neither resolves. -/
theorem GetSecret_property_fallback (payload : String)
    (projectID refKey refVersion property : String) (hpid : projectID ≠ "")
    (hdot : 0 < goIndexDot property) :
    (∀ v, gjsonGet payload (escapeDots property) = some v →
      GetSecret true projectID (fun _ => .ok (some payload))
          refKey refVersion property = .ok (jString v)) ∧
    (gjsonGet payload (escapeDots property) = none →
      GetSecret true projectID (fun _ => .ok (some payload))
          refKey refVersion property =
        (match gjsonGet payload property with
         | some v => .ok (jString v)
         | none => .error (.plain
             ("key " ++ property ++ " does not exist in secret " ++ refKey)))) ∧
    ('\\' ∉ property.data → parsePath (escapeDots property) = [property]) := by
  have hne : property ≠ "" := by
    intro he
    rw [he] at hdot
    exact absurd hdot (by decide)
  refine ⟨?_, ?_, parsePath_escapeDots property⟩
  · intro v hv
    simp [GetSecret, hpid, hne, getSecretProperty, hdot, hv]
  · intro hv
    simp [GetSecret, hpid, hne, getSecretProperty, hdot, hv, getSecretNested]

def demoPayload : String := "\x7b\"a.b\":\"v1\",\"a\":\x7b\"b\":\"v2\"\x7d\x7d"

theorem GetSecret_property_fallback_witness :
    GetSecret true "p1" (fun _ => .ok (some demoPayload)) "k" "" "a.b" =
      .ok "v1" :=
  (GetSecret_property_fallback demoPayload "p1" "k" "" "a.b"
      (by decide) (by decide)).1 (Json.str "v1") (by rfl)

/- ### The ACR access-token generator (pkg/generator/acr) -/

/-- Environment as `accessTokenForWorkloadIdentity` reads it: `os.Getenv`
yields the empty string for unset variables, so empty and unset coincide. -/
structure AcrEnv where
  azureClientID : String
  azureTenantID : String
  azureFederatedTokenFile : String
  deriving DecidableEq

/-- Service-account selector of the workload-identity auth block. -/
structure SvcAcctRef where
  name : String
  audiences : List String
  deriving DecidableEq

/-- An external call issued by the generator, with its arguments. -/
inductive AcrCall where
  | readTokenFile (path : String)
  | newTokenProv (token clientID tenantID aadEndpoint resource : String)
  | getServiceAccount (name nspace : String)
  | fetchSAToken (nspace name : String) (audiences : List String)
  deriving DecidableEq

/-- Annotation keys and the default audience come from the keyvault package,
which is outside `src/`; their exact values do not affect the claims settled
here. -/
def annotClientID : String := "azure.workload.identity/client-id"
def annotTenantID : String := "azure.workload.identity/tenant-id"
def azureDefaultAudience : String := "api://AzureADTokenExchange"

/-- Go `strings.HasSuffix`. -/
def goHasSuffix (s suf : String) : Bool := suf.data.isSuffixOf s.data

/-- Embedding of `accessTokenForWorkloadIdentity`.  Oracles: `readFileRes`
models `os.ReadFile`; `newTokenProv` models `keyvault.NewTokenProvider`
followed by `OAuthToken()` (success value is the token string); `getSA`
models the Kubernetes service-account read (success value: its annotation
map); `fetchTok` models `keyvault.FetchSAToken`.  The second component
records the external calls issued, in order. -/
def accessTokenForWorkloadIdentity (env : AcrEnv)
    (readFileRes : String → Except GoError String)
    (newTokenProv : String → String → String → String → String →
      Except GoError String)
    (getSA : String → String → Except GoError (List (String × String)))
    (fetchTok : String → String → List String → Except GoError String)
    (acrRegistry aadEndpoint : String)
    (saRef : Option SvcAcctRef) (nspace : String) :
    Except GoError String × List AcrCall :=
  let reg := if goHasSuffix acrRegistry "/" then acrRegistry else acrRegistry ++ "/"
  let acrResource := "https://" ++ reg ++ "/.default"
  match saRef with
  | none =>
    if env.azureClientID = "" ∨ env.azureTenantID = "" ∨
        env.azureFederatedTokenFile = "" then
      (.error (.plain "missing environment variables"), [])
    else
      match readFileRes env.azureFederatedTokenFile with
      | .error e =>
        (.error (.wrap ("unable to read token file " ++
            env.azureFederatedTokenFile ++ ": %w") e),
         [AcrCall.readTokenFile env.azureFederatedTokenFile])
      | .ok token =>
        match newTokenProv token env.azureClientID env.azureTenantID
            aadEndpoint acrResource with
        | .error e =>
          (.error e,
           [AcrCall.readTokenFile env.azureFederatedTokenFile,
            AcrCall.newTokenProv token env.azureClientID env.azureTenantID
              aadEndpoint acrResource])
        | .ok tok =>
          (.ok tok,
           [AcrCall.readTokenFile env.azureFederatedTokenFile,
            AcrCall.newTokenProv token env.azureClientID env.azureTenantID
              aadEndpoint acrResource])
  | some ref =>
    match getSA ref.name nspace with
    | .error e => (.error e, [AcrCall.getServiceAccount ref.name nspace])
    | .ok annots =>
      match goMapLookup annots annotClientID with
      | none =>
        (.error (.plain ("service account is missing annoation: " ++ annotClientID)),
         [AcrCall.getServiceAccount ref.name nspace])
      | some clientID =>
        match goMapLookup annots annotTenantID with
        | none =>
          (.error (.plain ("service account is missing annotation: " ++ annotTenantID)),
           [AcrCall.getServiceAccount ref.name nspace])
        | some tenantID =>
          match fetchTok nspace ref.name
              (if ref.audiences.length > 0 then
                [azureDefaultAudience] ++ ref.audiences
              else [azureDefaultAudience]) with
          | .error e =>
            (.error e,
             [AcrCall.getServiceAccount ref.name nspace,
              AcrCall.fetchSAToken nspace ref.name
                (if ref.audiences.length > 0 then
                  [azureDefaultAudience] ++ ref.audiences
                else [azureDefaultAudience])])
          | .ok token =>
            match newTokenProv token clientID tenantID aadEndpoint acrResource with
            | .error e =>
              (.error e,
               [AcrCall.getServiceAccount ref.name nspace,
                AcrCall.fetchSAToken nspace ref.name
                  (if ref.audiences.length > 0 then
                    [azureDefaultAudience] ++ ref.audiences
                  else [azureDefaultAudience]),
                AcrCall.newTokenProv token clientID tenantID aadEndpoint acrResource])
            | .ok tok =>
              (.ok tok,
               [AcrCall.getServiceAccount ref.name nspace,
                AcrCall.fetchSAToken nspace ref.name
                  (if ref.audiences.length > 0 then
                    [azureDefaultAudience] ++ ref.audiences
                  else [azureDefaultAudience]),
                AcrCall.newTokenProv token clientID tenantID aadEndpoint acrResource])

/-- C9: in the ambient workload-identity fallback (no explicit
service-account reference), the client-id, tenant-id and token-file
environment variables are all required: if any is empty or unset the
generator returns the configuration error having issued no external call —
in particular before reading the token file or attempting any token
exchange. -/
theorem accessTokenForWorkloadIdentity_env_required (env : AcrEnv)
    (readFileRes : String → Except GoError String)
    (newTokenProv : String → String → String → String → String →
      Except GoError String)
    (getSA : String → String → Except GoError (List (String × String)))
    (fetchTok : String → String → List String → Except GoError String)
    (acrRegistry aadEndpoint nspace : String)
    (hmiss : env.azureClientID = "" ∨ env.azureTenantID = "" ∨
      env.azureFederatedTokenFile = "") :
    accessTokenForWorkloadIdentity env readFileRes newTokenProv getSA fetchTok
        acrRegistry aadEndpoint none nspace =
      (.error (.plain "missing environment variables"), []) := by
  simp only [accessTokenForWorkloadIdentity]
  rw [if_pos hmiss]

theorem accessTokenForWorkloadIdentity_env_required_witness :
    accessTokenForWorkloadIdentity ⟨"", "tenant", "/var/run/secrets/token"⟩
        (fun _ => .ok "jwt") (fun _ _ _ _ _ => .ok "tok")
        (fun _ _ => .ok []) (fun _ _ _ => .ok "satok")
        "myregistry.azurecr.io" "https://login.microsoftonline.com/" none "ns" =
      (.error (.plain "missing environment variables"), []) :=
  accessTokenForWorkloadIdentity_env_required ⟨"", "tenant", "/var/run/secrets/token"⟩
    (fun _ => .ok "jwt") (fun _ _ _ _ _ => .ok "tok")
    (fun _ _ => .ok []) (fun _ _ _ => .ok "satok")
    "myregistry.azurecr.io" "https://login.microsoftonline.com/" "ns"
    (Or.inl rfl)
